import Mathlib

/-!
# Verification of NeMo SGD schema preprocessing and punctuation/capitalization
# evaluation callbacks

Shallow embedding of two Python source files:
- `nemo/collections/nlp/data/datasets/sgd_dataset/schema_processor.py`
- `nemo/collections/nlp/callbacks/punctuation_capitalization_callback.py`

Pure data flow is translated to Lean functions; filesystem presence is an
explicit map, Python exceptions become `Except`/`Option`, torch tensors of
shape `[batch, seq, ...]` are flattened position lists (concatenation along
the batch dimension becomes list concatenation, which is faithful because
every operation used is per-position or along the last axis).
-/

namespace NeMo

/-! ## String utilities

The Lean core string functions `startsWith`, `endsWith` and `splitOn` are
defined by well-founded recursion on byte positions, which the kernel does
not reduce; the structurally recursive char-list versions below are used
instead so that every definition evaluates on concrete inputs. -/

/-- `s.startswith(pre)`. -/
def strStartsWith (s pre : String) : Bool := pre.toList.isPrefixOf s.toList

/-- `s.endswith(suf)`. -/
def strEndsWith (s suf : String) : Bool := suf.toList.isSuffixOf s.toList

/-- Index of the first occurrence of `pat` in `s` (`str.index`), `none` when
absent. -/
def findSubstrIdx (pat : List Char) : List Char → Option Nat
  | [] => if pat.isEmpty then some 0 else none
  | c :: rest =>
      if pat.isPrefixOf (c :: rest) then some 0
      else (findSubstrIdx pat rest).map (fun i => i + 1)

/-- `pat in s` for strings (Python substring containment). -/
def containsSubstr (s pat : List Char) : Bool := (findSubstrIdx pat s).isSome

/-! ## Schema processor (`schema_processor.py`) -/

/-- `os.path.join(a, b)` for a single POSIX component `b`:
returns `b` when `b` is absolute, otherwise joins with exactly one `/`. -/
def osPathJoin (a b : String) : String :=
  if strStartsWith b "/" then b
  else if a = "" then b
  else if strEndsWith a "/" then a ++ b
  else a ++ "/" ++ b

/-- `SchemaPreprocessor._get_schema_embedding_file_name`:
`os.path.join(self._schema_embedding_dir, f"{dataset_split}_pretrained_schema_embedding.npy")`. -/
def get_schema_embedding_file_name (schema_embedding_dir dataset_split : String) : String :=
  osPathJoin schema_embedding_dir (dataset_split ++ "_pretrained_schema_embedding.npy")

/-- `master_device = not torch.distributed.is_initialized() or torch.distributed.get_rank() == 0`
(schema_processor.py line 73). -/
def master_device (distInitialized : Bool) (rank : Nat) : Bool :=
  !distInitialized || (rank == 0)

/-- The guard of the generation pass, with Python operator precedence:
`if master_device and not os.path.exists(schema_embedding_file) or overwrite_schema_emb_files:`
parses as `(master_device and not exists) or overwrite` (schema_processor.py line 74). -/
def shouldGenerate (master fileExists overwrite : Bool) : Bool :=
  (master && !fileExists) || overwrite

/-- Modelled from the spec (section 4.2) for comparison with `shouldGenerate`:
"On the designated coordinating process only (others must not race to
regenerate), if the target file is missing or a force-overwrite flag is set,
run schema text through a tokenizer and a pretrained encoder ... then persist".
That is: generate iff coordinator and (missing or overwrite). -/
def specShouldGenerate (master fileExists overwrite : Bool) : Bool :=
  master && (!fileExists || overwrite)

/-- Environment of one `SchemaPreprocessor.__init__` run: the distributed
state, the overwrite flag and which paths currently exist on disk. -/
structure InitEnv where
  distInitialized : Bool
  rank : Nat
  overwrite_schema_emb_files : Bool
  pathExists : String → Bool

/-- The `__init__` loop over `datasets` (schema_processor.py lines 69-98),
abstracted to its observable filesystem effect: the list of schema-embedding
files for which the tokenize-encode-persist pass runs (and which are hence
written by `save_embeddings`).  The generation body itself (BERT inference)
is external and not modelled. -/
def initGeneratedFiles (env : InitEnv) (schema_embedding_dir : String)
    (datasets : List String) : List String :=
  datasets.filterMap (fun dataset_split =>
    let schema_embedding_file := get_schema_embedding_file_name schema_embedding_dir dataset_split
    if shouldGenerate (master_device env.distInitialized env.rank)
        (env.pathExists schema_embedding_file) env.overwrite_schema_emb_files
    then some schema_embedding_file
    else none)

/-- One per-service record of the persisted schema embedding file
(`schema_data` entries in `get_schema_embeddings`), with its five fields. -/
structure ServiceRecord (α : Type) where
  cat_slot_emb : α
  cat_slot_value_emb : α
  noncat_slot_emb : α
  req_slot_emb : α
  intent_emb : α
  deriving DecidableEq

/-- The column-major result of `get_schema_embeddings`: one list per
embedding kind (`schema_data_dict`). -/
structure SchemaDataDict (α : Type) where
  cat_slot_emb : List α
  cat_slot_value_emb : List α
  noncat_slot_emb : List α
  req_slot_emb : List α
  intent_emb : List α
  deriving DecidableEq

/-- The transposition loop of `get_schema_embeddings` (lines 111-117):
starts from `collections.defaultdict(list)` and appends the five fields of
each service record in file order. -/
def schemaDataToDict {α : Type} (schema_data : List (ServiceRecord α)) : SchemaDataDict α :=
  schema_data.foldl
    (fun d service =>
      { cat_slot_emb := d.cat_slot_emb ++ [service.cat_slot_emb]
        cat_slot_value_emb := d.cat_slot_value_emb ++ [service.cat_slot_value_emb]
        noncat_slot_emb := d.noncat_slot_emb ++ [service.noncat_slot_emb]
        req_slot_emb := d.req_slot_emb ++ [service.req_slot_emb]
        intent_emb := d.intent_emb ++ [service.intent_emb] })
    ⟨[], [], [], [], []⟩

/-- `SchemaPreprocessor.get_schema_embeddings` (lines 100-119).  The
filesystem is a map from path to the deserialized record list (`none` when
no file exists at the path); a missing file raises
`ValueError(f"{schema_embedding_file} not found.")`. -/
def get_schema_embeddings {α : Type} (schema_embedding_dir : String)
    (fs : String → Option (List (ServiceRecord α))) (dataset_split : String) :
    Except String (SchemaDataDict α) :=
  let schema_embedding_file := get_schema_embedding_file_name schema_embedding_dir dataset_split
  match fs schema_embedding_file with
  | none => Except.error (schema_embedding_file ++ " not found.")
  | some schema_data => Except.ok (schemaDataToDict schema_data)

/-! ## Evaluation callbacks (`punctuation_capitalization_callback.py`)

A torch tensor of shape `[batch, seq]` or `[batch, seq, classes]` is
modelled as a list of flattened positions (row-major over batch and seq),
each position being the vector along the last axis — a singleton for
scalar-per-position tensors.  `torch.cat` along the batch dimension is then
list concatenation of the flattened lists. -/

/-- A tensor, flattened to positions; each entry is the last-axis vector. -/
def MTensor : Type := List (List ℚ)

instance : DecidableEq MTensor := by
  unfold MTensor
  infer_instance

/-- `torch.cat(v)` for a list of tensor pieces. -/
def mtCat (v : List MTensor) : MTensor :=
  v.foldr (fun t acc => List.append t acc) ([] : List (List ℚ))

/-- The elementwise comparison `tensor > 0.5` for a scalar-per-position
tensor (each row a singleton). -/
def maskGt (t : MTensor) : List Bool :=
  t.map (fun r => decide ((1 : ℚ)/2 < r.headD 0))

/-- Index of the first maximum of a row, scanning left to right
(`torch.argmax` along the last axis, first occurrence on ties). -/
def argmaxFrom : List ℚ → Nat → Nat → ℚ → Nat
  | [], _, best, _ => best
  | x :: rest, i, best, bestVal =>
      if bestVal < x then argmaxFrom rest (i + 1) i x
      else argmaxFrom rest (i + 1) best bestVal

/-- `torch.argmax(t, axis=-1)`: per-position index of the maximal class. -/
def argmaxLast (t : MTensor) : List Nat :=
  t.map (fun r =>
    match r with
    | [] => 0
    | x :: rest => argmaxFrom rest 1 0 x)

/-- `tensor2list` of a scalar-per-position tensor: the per-position values. -/
def scalarList (t : MTensor) : List ℚ :=
  t.map (fun r => r.headD 0)

/-- Boolean-mask indexing `xs[mask]`: keeps the entries at `true` positions. -/
def booleanIndex {α : Type} (xs : List α) (mask : List Bool) : List α :=
  ((xs.zip mask).filter (fun p => p.2)).map (fun p => p.1)

/-- Number of selected positions of a mask tensor
(`(subtokens_mask > 0.5).sum()` so to speak). -/
def maskCount (t : MTensor) : Nat := (maskGt t).count true

/-- The `global_vars` dictionary, restricted to the keys this file ever
touches.  `none` models key absence. Predictions are argmax indices
(`List Nat`), labels are tensor scalars (`List ℚ`). -/
structure GlobalVars where
  punct_all_preds : Option (List ℚ) := none
  punct_all_labels : Option (List ℚ) := none
  capit_all_preds : Option (List ℚ) := none
  capit_all_labels : Option (List ℚ) := none
  all_subtokens_mask : Option (List ℚ) := none
  punct_preds : Option (List Nat) := none
  punct_labels : Option (List ℚ) := none
  capit_preds : Option (List Nat) := none
  capit_labels : Option (List ℚ) := none
  part_sent_preds : Option (List Nat) := none
  part_sent_labels : Option (List ℚ) := none
  deriving DecidableEq

/-- The empty `global_vars` dictionary. -/
def emptyGV : GlobalVars := {}

/-- Python-dict lookup on an association list (`d[k]`, `none` = `KeyError`). -/
def dictLookup {α : Type} (d : List (String × α)) (k : String) : Option α :=
  (d.find? (fun p => p.1 == k)).map (fun p => p.2)

/-- Python-dict assignment `d[k] = v`: overwrites in place when `k` is
present (keeping its position), otherwise appends at the end. -/
def dictInsert {α : Type} (d : List (String × α)) (k : String) (v : α) :
    List (String × α) :=
  if (d.find? (fun p => p.1 == k)).isSome then
    d.map (fun p => if p.1 == k then (k, v) else p)
  else d ++ [(k, v)]

/-- The output-extraction loop of `eval_iter_callback` (lines 43-47):
`name = k.split('~~~')` has `len(name) > 1` exactly when `k` contains the
separator `~~~`, and `name[0]` is then the part of `k` before its first
occurrence; in that case store `torch.cat(v)` under `name[0]`. -/
def buildOutput (tensors : List (String × List MTensor)) : List (String × MTensor) :=
  tensors.foldl
    (fun output kv =>
      match findSubstrIdx "~~~".toList kv.1.toList with
      | some i => dictInsert output (String.mk (kv.1.toList.take i)) (mtCat kv.2)
      | none => output)
    []

/-- The body of `eval_iter_callback` after `output` has been built
(lines 27-60).  Steps, in source order:
1. initialize the five `*_all_*` accumulators and the four task
   accumulators to `[]` when absent;
2. `subtokens_mask = output['subtokens_mask'] > 0.5`, then extend the four
   task accumulators with the mask-selected argmax predictions and labels;
3. when `part_sent_logits` is present, initialize `part_sent_preds` and
   `part_sent_labels` to `[]` if `part_sent_preds` is absent, then extend
   them with the UNMASKED argmax predictions and labels.
A `none` result models a Python `KeyError` escaping the call (the partial
in-place mutations preceding an exception are not modelled). -/
def evalIterCore (output : List (String × MTensor)) (gv : GlobalVars) :
    Option GlobalVars :=
  let gv1 : GlobalVars :=
    { gv with
      punct_all_preds := some (gv.punct_all_preds.getD [])
      punct_all_labels := some (gv.punct_all_labels.getD [])
      capit_all_preds := some (gv.capit_all_preds.getD [])
      capit_all_labels := some (gv.capit_all_labels.getD [])
      all_subtokens_mask := some (gv.all_subtokens_mask.getD [])
      punct_labels := some (gv.punct_labels.getD [])
      capit_labels := some (gv.capit_labels.getD [])
      punct_preds := some (gv.punct_preds.getD [])
      capit_preds := some (gv.capit_preds.getD []) }
  match dictLookup output "subtokens_mask", dictLookup output "punct_logits",
      dictLookup output "capit_logits", dictLookup output "punct_labels",
      dictLookup output "capit_labels" with
  | some mt, some pl, some cl, some plab, some clab =>
    let mask := maskGt mt
    let gv2 : GlobalVars :=
      { gv1 with
        punct_preds := some (gv1.punct_preds.getD [] ++ booleanIndex (argmaxLast pl) mask)
        capit_preds := some (gv1.capit_preds.getD [] ++ booleanIndex (argmaxLast cl) mask)
        punct_labels := some (gv1.punct_labels.getD [] ++ booleanIndex (scalarList plab) mask)
        capit_labels := some (gv1.capit_labels.getD [] ++ booleanIndex (scalarList clab) mask) }
    match dictLookup output "part_sent_logits" with
    | none => some gv2
    | some psl =>
      match dictLookup output "part_sent_labels" with
      | none => none
      | some pslab =>
        let gv3 : GlobalVars :=
          if gv2.part_sent_preds.isSome then gv2
          else { gv2 with part_sent_preds := some [], part_sent_labels := some [] }
        match gv3.part_sent_preds, gv3.part_sent_labels with
        | some pp, some plbs =>
            some { gv3 with
              part_sent_preds := some (pp ++ argmaxLast psl)
              part_sent_labels := some (plbs ++ scalarList pslab) }
        | _, _ => none
  | _, _, _, _, _ => none

/-- `eval_iter_callback(tensors, global_vars)` (lines 26-60). -/
def evalIterCallback (tensors : List (String × List MTensor)) (gv : GlobalVars) :
    Option GlobalVars :=
  evalIterCore (buildOutput tensors) gv

/-- A whole evaluation epoch: `eval_iter_callback` on each batch in turn. -/
def runBatches (batches : List (List (String × List MTensor))) (gv : GlobalVars) :
    Option GlobalVars :=
  batches.foldlM (fun g b => evalIterCallback b g) gv

/-! ### Epoch-end metrics (`_get_result_dict`, `eval_epochs_done_callback`) -/

/-- The label-name trimming of `_get_result_dict` (line 65):
`label[: label.index('(label id') - 1] if 'label id' in label else label`.
Python slicing: when `'(label id'` starts at index `i >= 1` this takes the
first `i - 1` characters; at `i = 0` the slice bound is `-1`, i.e. all but
the last character.  When `'label id'` occurs but `'(label id'` does not,
`str.index` raises `ValueError` (`none`). -/
def labelName (label : String) : Option String :=
  if containsSubstr label.toList "label id".toList then
    match findSubstrIdx "(label id".toList label.toList with
    | some i =>
        some (String.mk (if i = 0 then label.toList.dropLast else label.toList.take (i - 1)))
    | none => none
  else some label

/-- One row of the external `get_classification_report(..., output_dict=True)`
result: per-class precision, recall and f1-score. -/
structure ClassStats where
  precision : ℚ
  recall_score : ℚ
  f1_score : ℚ
  deriving DecidableEq

/-- Round half to even (Python `round` to an integer, on exact rationals). -/
def roundHalfToEven (x : ℚ) : ℤ :=
  let n := Int.floor x
  let r := x - n
  if r < 1/2 then n
  else if 1/2 < r then n + 1
  else if n % 2 = 0 then n else n + 1

/-- Python `round(x, 2)` on exact rationals (the source rounds binary
floats; the claims concern the ideal decimal rounding). -/
def pyRound2 (x : ℚ) : ℚ := (roundHalfToEven (x * 100) : ℚ) / 100

/-- The three entries `_get_result_dict` adds for one report row
(lines 66-68), in source order. -/
def resultEntries (tag label : String) (st : ClassStats) : List (String × ℚ) :=
  [(tag ++ "F1 " ++ label, pyRound2 (st.f1_score * 100)),
   (tag ++ "PR " ++ label, pyRound2 (st.precision * 100)),
   (tag ++ "R " ++ label, pyRound2 (st.recall_score * 100))]

/-- The loop of `_get_result_dict` (lines 62-69) over the report rows,
carrying the `results` dict; `none` models the `ValueError` from
`label.index`. -/
def resultDictAux (tag : String) :
    List (String × ClassStats) → List (String × ℚ) → Option (List (String × ℚ))
  | [], results => some results
  | (label, st) :: rest, results =>
      match labelName label with
      | none => none
      | some name =>
          resultDictAux tag rest
            (dictInsert (dictInsert (dictInsert results
              (tag ++ "F1 " ++ name) (pyRound2 (st.f1_score * 100)))
              (tag ++ "PR " ++ name) (pyRound2 (st.precision * 100)))
              (tag ++ "R " ++ name) (pyRound2 (st.recall_score * 100)))

/-- `_get_result_dict(tag, class_report)`. -/
def get_result_dict (tag : String) (class_report : List (String × ClassStats)) :
    Option (List (String × ℚ)) :=
  resultDictAux tag class_report []

/-- `d.update(e)` on Python dicts. -/
def dictUpdate {α : Type} (d e : List (String × α)) : List (String × α) :=
  e.foldl (fun acc kv => dictInsert acc kv.1 kv.2) d

/-- `np.mean(part_sent_labels == part_sent_preds)` (line 90) for same-length
arrays; division by zero stands in for numpy's NaN on empty input. -/
def partSentAccuracy (labels : List ℚ) (preds : List Nat) : ℚ :=
  (((labels.zip preds).countP (fun p => p.1 == (p.2 : ℚ)) : ℚ)) / (labels.length : ℚ)

/-- `eval_epochs_done_callback` (lines 71-94).  The external
`get_classification_report(labels, preds, label_ids, output_dict=True)` is a
parameter `classReport`; confusion-matrix plotting and logging are effect-free
for the result and are dropped.  Reads `global_vars[task + '_labels']` and
`global_vars[task + '_preds']` per task (a missing key is a `KeyError`,
i.e. `none`); the partial-sentence block runs iff `'part_sent_preds'` is a
key of `global_vars`, and finally stores the rounded accuracy under
`'Part_sent_acc'`. -/
def evalEpochsDone {I : Type}
    (classReport : List ℚ → List Nat → I → List (String × ClassStats))
    (gv : GlobalVars) (punct_label_ids capit_label_ids part_sent_label_ids : I) :
    Option (List (String × ℚ)) := do
  let plab ← gv.punct_labels
  let ppred ← gv.punct_preds
  let punct_class_report := classReport plab ppred punct_label_ids
  let pDict ← get_result_dict "p" punct_class_report
  let results := dictUpdate [] pDict
  let clab ← gv.capit_labels
  let cpred ← gv.capit_preds
  let capit_class_report := classReport clab cpred capit_label_ids
  let cDict ← get_result_dict "c" capit_class_report
  let results := dictUpdate results cDict
  if gv.part_sent_preds.isSome then do
    let tlab ← gv.part_sent_labels
    let tpred ← gv.part_sent_preds
    let part_sent_class_report := classReport tlab tpred part_sent_label_ids
    let tDict ← get_result_dict "t" part_sent_class_report
    let results := dictUpdate results tDict
    let part_sent_acc := partSentAccuracy tlab tpred
    pure (dictInsert results "Part_sent_acc" (pyRound2 (part_sent_acc * 100)))
  else
    pure results

/-! ### Support definitions for the claims -/

/-- Shape well-formedness of one batch `output`: the four logits/labels
tensors flatten to as many positions as the subtoken mask (in torch a
mismatch would be a runtime error before any accumulator is extended). -/
def alignedOutput (output : List (String × MTensor)) : Bool :=
  match dictLookup output "subtokens_mask", dictLookup output "punct_logits",
      dictLookup output "capit_logits", dictLookup output "punct_labels",
      dictLookup output "capit_labels" with
  | some mt, some pl, some cl, some plab, some clab =>
      (pl.length == mt.length) && (cl.length == mt.length) &&
      (plab.length == mt.length) && (clab.length == mt.length)
  | _, _, _, _, _ => false

/-- The stripped label name used for the result keys (`labelName`, with the
label itself as the irrelevant default in the `ValueError` case). -/
def nameOf (label : String) : String := (labelName label).getD label

/-- The association list `_get_result_dict` produces when every generated
key is fresh: three entries per report row, in source order. -/
def flatResult (tag : String) (report : List (String × ClassStats)) : List (String × ℚ) :=
  report.foldr (fun p acc => resultEntries tag (nameOf p.1) p.2 ++ acc) []

/-- The keys of `flatResult`. -/
def resultKeys (tag : String) (report : List (String × ClassStats)) : List String :=
  (flatResult tag report).map (fun p => p.1)

/-- A small concrete batch (two positions, the second masked out) used to
evaluate the callback on explicit inputs.  Keys carry the `~~~` separator as
in the framework's tensor naming. -/
def sampleBatch : List (String × List MTensor) :=
  [("subtokens_mask~~~0", [[[1], [0]]]),
   ("punct_logits~~~0", [[[1, 3], [2, 0]]]),
   ("capit_logits~~~0", [[[0, 2], [5, 1]]]),
   ("punct_labels~~~0", [[[1], [0]]]),
   ("capit_labels~~~0", [[[1], [1]]])]

/-- `sampleBatch` with an extra separator-free entry, which the extraction
loop must ignore. -/
def sampleBatchJunk : List (String × List MTensor) :=
  [("subtokens_mask~~~0", [[[1], [0]]]),
   ("junk", [[[9, 9, 9]]]),
   ("punct_logits~~~0", [[[1, 3], [2, 0]]]),
   ("capit_logits~~~0", [[[0, 2], [5, 1]]]),
   ("punct_labels~~~0", [[[1], [0]]]),
   ("capit_labels~~~0", [[[1], [1]]])]

/-- The `global_vars` state after one `eval_iter_callback` call on
`sampleBatch` from the empty state. -/
def sampleGV : GlobalVars :=
  { punct_all_preds := some [], punct_all_labels := some [],
    capit_all_preds := some [], capit_all_labels := some [],
    all_subtokens_mask := some [],
    punct_preds := some [1], punct_labels := some [1],
    capit_preds := some [1], capit_labels := some [1],
    part_sent_preds := none, part_sent_labels := none }

/-- A concrete `output` dict with a partial-sentence head: the mask selects
only the first of two positions. -/
def c6Output : List (String × MTensor) :=
  [("subtokens_mask", [[1], [0]]),
   ("punct_logits", [[1, 3], [2, 0]]),
   ("capit_logits", [[0, 2], [5, 1]]),
   ("punct_labels", [[1], [0]]),
   ("capit_labels", [[1], [1]]),
   ("part_sent_logits", [[0, 1], [1, 0]]),
   ("part_sent_labels", [[5], [7]])]

/-! ### Helper lemmas for the transposition -/

theorem schemaDataToDict_acc {α : Type} (l : List (ServiceRecord α))
    (d : SchemaDataDict α) :
    l.foldl (fun d service =>
      { cat_slot_emb := d.cat_slot_emb ++ [service.cat_slot_emb]
        cat_slot_value_emb := d.cat_slot_value_emb ++ [service.cat_slot_value_emb]
        noncat_slot_emb := d.noncat_slot_emb ++ [service.noncat_slot_emb]
        req_slot_emb := d.req_slot_emb ++ [service.req_slot_emb]
        intent_emb := d.intent_emb ++ [service.intent_emb] }) d
    = { cat_slot_emb := d.cat_slot_emb ++ l.map (fun s => s.cat_slot_emb)
        cat_slot_value_emb := d.cat_slot_value_emb ++ l.map (fun s => s.cat_slot_value_emb)
        noncat_slot_emb := d.noncat_slot_emb ++ l.map (fun s => s.noncat_slot_emb)
        req_slot_emb := d.req_slot_emb ++ l.map (fun s => s.req_slot_emb)
        intent_emb := d.intent_emb ++ l.map (fun s => s.intent_emb) } := by
  induction l generalizing d with
  | nil => simp
  | cons s rest ih =>
      simp only [List.foldl_cons, List.map_cons]
      rw [ih]
      simp [List.append_assoc]

theorem schemaDataToDict_eq_map {α : Type} (l : List (ServiceRecord α)) :
    schemaDataToDict l
    = { cat_slot_emb := l.map (fun s => s.cat_slot_emb)
        cat_slot_value_emb := l.map (fun s => s.cat_slot_value_emb)
        noncat_slot_emb := l.map (fun s => s.noncat_slot_emb)
        req_slot_emb := l.map (fun s => s.req_slot_emb)
        intent_emb := l.map (fun s => s.intent_emb) } := by
  unfold schemaDataToDict
  rw [schemaDataToDict_acc]
  simp

/-! ### Claims about the schema processor -/

/-- C1: the claim says the tokenize-encode-persist pass runs iff the process
is the coordinator and (the file is missing or overwrite is set), and that a
non-coordinator never regenerates.  The code's guard
`master_device and not os.path.exists(...) or overwrite_schema_emb_files`
binds as `(master and missing) or overwrite`, so with the overwrite flag set
a non-coordinator process (distributed initialized, rank 1) runs the pass
even when the file exists — the spec's guard (`specShouldGenerate`) refuses
exactly there. -/
theorem C1_noncoordinator_regenerates_on_overwrite :
    master_device true 1 = false ∧
    shouldGenerate (master_device true 1) true true = true ∧
    specShouldGenerate (master_device true 1) true true = false ∧
    initGeneratedFiles ⟨true, 1, true, fun _ => true⟩ "emb" ["train"]
      = ["emb/train_pretrained_schema_embedding.npy"] := by
  refine ⟨rfl, rfl, rfl, ?_⟩
  decide

/-- C3: for every dataset split, when the overwrite flag is true the
`SchemaPreprocessor` constructor runs the generation pass and rewrites the
split's schema embedding file, even when a file already exists at the target
path (the environment's `pathExists` is arbitrary, in particular everywhere
true). -/
theorem C3_overwrite_forces_regeneration (env : InitEnv) (dir : String)
    (datasets : List String) (split : String)
    (how : env.overwrite_schema_emb_files = true) (hmem : split ∈ datasets) :
    get_schema_embedding_file_name dir split ∈ initGeneratedFiles env dir datasets := by
  unfold initGeneratedFiles
  refine List.mem_filterMap.mpr ⟨split, hmem, ?_⟩
  simp [shouldGenerate, how]

theorem C3_witness :
    get_schema_embedding_file_name "emb" "dev"
      ∈ initGeneratedFiles ⟨false, 0, true, fun _ => true⟩ "emb" ["dev"] :=
  C3_overwrite_forces_regeneration ⟨false, 0, true, fun _ => true⟩ "emb" ["dev"] "dev"
    rfl (by decide)

/-- C4: for every dataset split, `get_schema_embeddings` computes its path
as `<schema_embedding_dir>/<split>_pretrained_schema_embedding.npy` (for a
nonempty directory not already ending in the separator and a relative file
component), and when no file exists at that path it returns the fatal error
whose message names that path, with no retry. -/
theorem C4_missing_file_is_fatal {α : Type} (dir split : String)
    (fs : String → Option (List (ServiceRecord α)))
    (hdir : dir ≠ "") (hsep : strEndsWith dir "/" = false)
    (hrel : strStartsWith (split ++ "_pretrained_schema_embedding.npy") "/" = false)
    (hmiss : fs (get_schema_embedding_file_name dir split) = none) :
    get_schema_embedding_file_name dir split
      = dir ++ "/" ++ (split ++ "_pretrained_schema_embedding.npy") ∧
    get_schema_embeddings dir fs split
      = Except.error (dir ++ "/" ++ (split ++ "_pretrained_schema_embedding.npy")
          ++ " not found.") := by
  have hname : get_schema_embedding_file_name dir split
      = dir ++ "/" ++ (split ++ "_pretrained_schema_embedding.npy") := by
    unfold get_schema_embedding_file_name osPathJoin
    simp [hdir, hsep, hrel, String.append_assoc]
  refine ⟨hname, ?_⟩
  simp only [get_schema_embeddings, hmiss]
  rw [hname]

theorem C4_witness :
    get_schema_embedding_file_name "emb" "train"
      = "emb" ++ "/" ++ ("train" ++ "_pretrained_schema_embedding.npy") ∧
    get_schema_embeddings "emb" (fun _ => (none : Option (List (ServiceRecord Unit)))) "train"
      = Except.error ("emb" ++ "/" ++ ("train" ++ "_pretrained_schema_embedding.npy")
          ++ " not found.") :=
  C4_missing_file_is_fatal "emb" "train" (fun _ => none)
    (by decide) (by decide) (by decide) rfl

/-- C5: for every persisted file holding a list of per-service records with
the five embedding fields, `get_schema_embeddings` returns the transpose:
each of the five lists has length equal to the number of service records,
and its i-th element is the corresponding field of the i-th record. -/
theorem C5_load_transposes_records {α : Type} (dir split : String)
    (fs : String → Option (List (ServiceRecord α))) (records : List (ServiceRecord α))
    (hfs : fs (get_schema_embedding_file_name dir split) = some records) :
    get_schema_embeddings dir fs split = Except.ok (schemaDataToDict records) ∧
    (schemaDataToDict records).cat_slot_emb.length = records.length ∧
    (schemaDataToDict records).cat_slot_value_emb.length = records.length ∧
    (schemaDataToDict records).noncat_slot_emb.length = records.length ∧
    (schemaDataToDict records).req_slot_emb.length = records.length ∧
    (schemaDataToDict records).intent_emb.length = records.length ∧
    (∀ i : Nat,
      (schemaDataToDict records).cat_slot_emb[i]?
          = records[i]?.map (fun s => s.cat_slot_emb) ∧
      (schemaDataToDict records).cat_slot_value_emb[i]?
          = records[i]?.map (fun s => s.cat_slot_value_emb) ∧
      (schemaDataToDict records).noncat_slot_emb[i]?
          = records[i]?.map (fun s => s.noncat_slot_emb) ∧
      (schemaDataToDict records).req_slot_emb[i]?
          = records[i]?.map (fun s => s.req_slot_emb) ∧
      (schemaDataToDict records).intent_emb[i]?
          = records[i]?.map (fun s => s.intent_emb)) := by
  refine ⟨?_, ?_, ?_, ?_, ?_, ?_, ?_⟩
  case _ =>
    simp only [get_schema_embeddings, hfs]
  all_goals rw [schemaDataToDict_eq_map]
  case _ => simp
  case _ => simp
  case _ => simp
  case _ => simp
  case _ => simp
  case _ =>
    intro i
    refine ⟨?_, ?_, ?_, ?_, ?_⟩ <;> simp [List.getElem?_map]

theorem C5_witness :
    get_schema_embeddings "emb"
        (fun _ => some [ServiceRecord.mk (10 : Nat) 11 12 13 14,
                        ServiceRecord.mk 20 21 22 23 24])
        "train"
      = Except.ok (schemaDataToDict
          [ServiceRecord.mk (10 : Nat) 11 12 13 14, ServiceRecord.mk 20 21 22 23 24]) ∧
    (schemaDataToDict
        [ServiceRecord.mk (10 : Nat) 11 12 13 14,
         ServiceRecord.mk 20 21 22 23 24]).cat_slot_emb.length
      = [ServiceRecord.mk (10 : Nat) 11 12 13 14, ServiceRecord.mk 20 21 22 23 24].length :=
  let recs := [ServiceRecord.mk (10 : Nat) 11 12 13 14, ServiceRecord.mk 20 21 22 23 24]
  let h := C5_load_transposes_records "emb" "train" (fun _ => some recs) recs rfl
  ⟨h.1, h.2.1⟩

/-! ### Helper lemmas for the callbacks -/

theorem buildOutput_foldl_filter (t : List (String × List MTensor))
    (acc : List (String × MTensor)) :
    t.foldl
      (fun output kv =>
        match findSubstrIdx "~~~".toList kv.1.toList with
        | some i => dictInsert output (String.mk (kv.1.toList.take i)) (mtCat kv.2)
        | none => output) acc
    = (t.filter (fun kv => containsSubstr kv.1.toList "~~~".toList)).foldl
      (fun output kv =>
        match findSubstrIdx "~~~".toList kv.1.toList with
        | some i => dictInsert output (String.mk (kv.1.toList.take i)) (mtCat kv.2)
        | none => output) acc := by
  induction t generalizing acc with
  | nil => rfl
  | cons kv rest ih =>
      rcases hc : findSubstrIdx "~~~".toList kv.1.toList with _ | i
      · have hcs : containsSubstr kv.1.toList "~~~".toList = false := by
          unfold containsSubstr
          rw [hc]
          rfl
        simp only [List.foldl_cons, List.filter_cons, hcs, hc]
        exact ih acc
      · have hcs : containsSubstr kv.1.toList "~~~".toList = true := by
          unfold containsSubstr
          rw [hc]
          rfl
        simp only [List.foldl_cons, List.filter_cons, hcs, hc, if_true]
        exact ih _

theorem buildOutput_congr_filter (t : List (String × List MTensor)) :
    buildOutput t
      = buildOutput (t.filter (fun kv => containsSubstr kv.1.toList "~~~".toList)) := by
  unfold buildOutput
  exact buildOutput_foldl_filter t []

theorem booleanIndex_cons {α : Type} (x : α) (xs : List α) (b : Bool) (mask : List Bool) :
    booleanIndex (x :: xs) (b :: mask)
      = (if b then [x] else []) ++ booleanIndex xs mask := by
  cases b <;> simp [booleanIndex]

theorem booleanIndex_length {α : Type} :
    ∀ (xs : List α) (mask : List Bool), xs.length = mask.length →
      (booleanIndex xs mask).length = mask.count true
  | [], [], _ => by simp [booleanIndex]
  | [], _ :: _, h => by simp at h
  | _ :: _, [], h => by simp at h
  | x :: xs, b :: mask, h => by
      have h' : xs.length = mask.length := by simpa using h
      rw [booleanIndex_cons]
      cases b <;> simp [booleanIndex_length xs mask h', List.count_cons]

theorem argmaxLast_length (t : MTensor) : (argmaxLast t).length = t.length := by
  simp [argmaxLast, MTensor]

theorem scalarList_length (t : MTensor) : (scalarList t).length = t.length := by
  simp [scalarList, MTensor]

theorem maskGt_length (t : MTensor) : (maskGt t).length = t.length := by
  simp [maskGt, MTensor]

/-! ### Claims about `eval_iter_callback` -/

/-- C10: `eval_iter_callback` ignores every entry of `tensors` whose key
does not contain the separator `~~~`: two inputs that agree on the entries
whose key contains the separator produce identical updates to
`global_vars`. -/
theorem C10_separator_free_keys_ignored (t1 t2 : List (String × List MTensor))
    (gv : GlobalVars)
    (h : t1.filter (fun kv => containsSubstr kv.1.toList "~~~".toList)
       = t2.filter (fun kv => containsSubstr kv.1.toList "~~~".toList)) :
    evalIterCallback t1 gv = evalIterCallback t2 gv := by
  unfold evalIterCallback
  rw [buildOutput_congr_filter t1, buildOutput_congr_filter t2, h]

theorem C10_witness :
    evalIterCallback sampleBatchJunk emptyGV = evalIterCallback sampleBatch emptyGV :=
  C10_separator_free_keys_ignored sampleBatchJunk sampleBatch emptyGV (by decide)

/-- C6 (counterexample): the claim says the partial-sentence head is handled
like the punctuation/capitalization tasks, i.e. with subtoken-mask
selection.  On `c6Output` the mask selects only the first of two positions,
yet the appended predictions are the argmax of BOTH positions `[1, 0]` and
the appended labels are both labels `[5, 7]`, not the masked selections
`[1]` and `[5]`. -/
theorem C6_counterexample :
    (evalIterCore c6Output emptyGV).map (fun g => g.part_sent_preds)
      = some (some [1, 0]) ∧
    (evalIterCore c6Output emptyGV).map (fun g => g.part_sent_labels)
      = some (some [5, 7]) ∧
    booleanIndex (argmaxLast [[0, 1], [1, 0]]) (maskGt [[1], [0]]) = [1] ∧
    booleanIndex (scalarList [[5], [7]]) (maskGt [[1], [0]]) = [5] ∧
    (some [1, 0] : Option (List Nat)) ≠ some [1] ∧
    (some [5, 7] : Option (List ℚ)) ≠ some [5] := by
  refine ⟨?_, ?_, ?_, ?_, by decide, by norm_num⟩
  all_goals
    simp [evalIterCore, c6Output, dictLookup, emptyGV, maskGt, argmaxLast,
      argmaxFrom, scalarList, booleanIndex]
  all_goals norm_num

/-- C6 (amended): when the batch output contains a partial-sentence logits
tensor, `eval_iter_callback` appends the argmax class indices over ALL
positions — without subtoken-mask selection — to `part_sent_preds`, and all
per-position labels to `part_sent_labels`, initializing both buffers to `[]`
first when `part_sent_preds` is absent. -/
theorem C6_part_sent_appended_unmasked (output : List (String × MTensor))
    (gv : GlobalVars) (mt pl cl plab clab psl pslab : MTensor)
    (hm : dictLookup output "subtokens_mask" = some mt)
    (hpl : dictLookup output "punct_logits" = some pl)
    (hcl : dictLookup output "capit_logits" = some cl)
    (hplab : dictLookup output "punct_labels" = some plab)
    (hclab : dictLookup output "capit_labels" = some clab)
    (hpsl : dictLookup output "part_sent_logits" = some psl)
    (hpslab : dictLookup output "part_sent_labels" = some pslab)
    (hcoh : gv.part_sent_preds.isSome → gv.part_sent_labels.isSome) :
    ∃ gv2, evalIterCore output gv = some gv2 ∧
      gv2.part_sent_preds = some (gv.part_sent_preds.getD [] ++ argmaxLast psl) ∧
      gv2.part_sent_labels
        = some ((if gv.part_sent_preds.isSome then gv.part_sent_labels.getD [] else [])
            ++ scalarList pslab) := by
  simp only [evalIterCore, hm, hpl, hcl, hplab, hclab, hpsl, hpslab]
  rcases hp : gv.part_sent_preds with _ | pp
  · simp [hp]
  · have hl := hcoh (by simp [hp])
    rcases hlab : gv.part_sent_labels with _ | plbs
    · rw [hlab] at hl
      simp at hl
    · simp [hp, hlab]

theorem C6_witness :
    ∃ gv2, evalIterCore c6Output emptyGV = some gv2 ∧
      gv2.part_sent_preds
        = some (emptyGV.part_sent_preds.getD [] ++ argmaxLast [[0, 1], [1, 0]]) ∧
      gv2.part_sent_labels
        = some ((if emptyGV.part_sent_preds.isSome
              then emptyGV.part_sent_labels.getD [] else [])
            ++ scalarList [[5], [7]]) :=
  C6_part_sent_appended_unmasked c6Output emptyGV
    [[1], [0]] [[1, 3], [2, 0]] [[0, 2], [5, 1]] [[1], [0]] [[1], [1]]
    [[0, 1], [1, 0]] [[5], [7]]
    (by decide) (by decide) (by decide) (by decide) (by decide) (by decide) (by decide)
    (by decide)

/-- C2: for every batch with punctuation/capitalization logits, labels and a
subtoken mask (of matching flattened sizes), exactly the positions whose
mask value exceeds 0.5 contribute: the appended predictions are the argmax
class indices at those positions, the appended labels are the ground-truth
labels at those positions, and each of the four running lists grows by
exactly the number of positions with mask > 0.5 (`maskCount`). -/
theorem C2_mask_selects_contributions (output : List (String × MTensor))
    (gv : GlobalVars) (mt pl cl plab clab : MTensor)
    (hm : dictLookup output "subtokens_mask" = some mt)
    (hpl : dictLookup output "punct_logits" = some pl)
    (hcl : dictLookup output "capit_logits" = some cl)
    (hplab : dictLookup output "punct_labels" = some plab)
    (hclab : dictLookup output "capit_labels" = some clab)
    (hlpl : pl.length = mt.length) (hlcl : cl.length = mt.length)
    (hlplab : plab.length = mt.length) (hlclab : clab.length = mt.length)
    (hps : dictLookup output "part_sent_logits" = none ∨
      (∃ psl pslab, dictLookup output "part_sent_logits" = some psl ∧
        dictLookup output "part_sent_labels" = some pslab ∧
        (gv.part_sent_preds.isSome → gv.part_sent_labels.isSome))) :
    ∃ gv2, evalIterCore output gv = some gv2 ∧
      gv2.punct_preds
        = some (gv.punct_preds.getD [] ++ booleanIndex (argmaxLast pl) (maskGt mt)) ∧
      gv2.capit_preds
        = some (gv.capit_preds.getD [] ++ booleanIndex (argmaxLast cl) (maskGt mt)) ∧
      gv2.punct_labels
        = some (gv.punct_labels.getD [] ++ booleanIndex (scalarList plab) (maskGt mt)) ∧
      gv2.capit_labels
        = some (gv.capit_labels.getD [] ++ booleanIndex (scalarList clab) (maskGt mt)) ∧
      (gv2.punct_preds.getD []).length
        = (gv.punct_preds.getD []).length + maskCount mt ∧
      (gv2.capit_preds.getD []).length
        = (gv.capit_preds.getD []).length + maskCount mt ∧
      (gv2.punct_labels.getD []).length
        = (gv.punct_labels.getD []).length + maskCount mt ∧
      (gv2.capit_labels.getD []).length
        = (gv.capit_labels.getD []).length + maskCount mt := by
  have lenPl : (argmaxLast pl).length = (maskGt mt).length := by
    rw [argmaxLast_length, maskGt_length, hlpl]
  have lenCl : (argmaxLast cl).length = (maskGt mt).length := by
    rw [argmaxLast_length, maskGt_length, hlcl]
  have lenPlab : (scalarList plab).length = (maskGt mt).length := by
    rw [scalarList_length, maskGt_length, hlplab]
  have lenClab : (scalarList clab).length = (maskGt mt).length := by
    rw [scalarList_length, maskGt_length, hlclab]
  have hc1 := booleanIndex_length (argmaxLast pl) (maskGt mt) lenPl
  have hc2 := booleanIndex_length (argmaxLast cl) (maskGt mt) lenCl
  have hc3 := booleanIndex_length (scalarList plab) (maskGt mt) lenPlab
  have hc4 := booleanIndex_length (scalarList clab) (maskGt mt) lenClab
  simp only [evalIterCore, hm, hpl, hcl, hplab, hclab]
  rcases hps with h | ⟨psl, pslab, hpsl, hpslab, hcoh⟩
  · rw [h]
    simp [maskCount, hc1, hc2, hc3, hc4]
  · rw [hpsl, hpslab]
    rcases hp : gv.part_sent_preds with _ | pp
    · simp [hp, maskCount, hc1, hc2, hc3, hc4]
    · have hl := hcoh (by simp [hp])
      rcases hlab : gv.part_sent_labels with _ | plbs
      · rw [hlab] at hl
        simp at hl
      · simp [hp, hlab, maskCount, hc1, hc2, hc3, hc4]

theorem C2_witness :
    ∃ gv2, evalIterCore (buildOutput sampleBatch) emptyGV = some gv2 ∧
      gv2.punct_preds
        = some (emptyGV.punct_preds.getD []
            ++ booleanIndex (argmaxLast [[1, 3], [2, 0]]) (maskGt [[1], [0]])) ∧
      gv2.capit_preds
        = some (emptyGV.capit_preds.getD []
            ++ booleanIndex (argmaxLast [[0, 2], [5, 1]]) (maskGt [[1], [0]])) ∧
      gv2.punct_labels
        = some (emptyGV.punct_labels.getD []
            ++ booleanIndex (scalarList [[1], [0]]) (maskGt [[1], [0]])) ∧
      gv2.capit_labels
        = some (emptyGV.capit_labels.getD []
            ++ booleanIndex (scalarList [[1], [1]]) (maskGt [[1], [0]])) ∧
      (gv2.punct_preds.getD []).length
        = (emptyGV.punct_preds.getD []).length + maskCount [[1], [0]] ∧
      (gv2.capit_preds.getD []).length
        = (emptyGV.capit_preds.getD []).length + maskCount [[1], [0]] ∧
      (gv2.punct_labels.getD []).length
        = (emptyGV.punct_labels.getD []).length + maskCount [[1], [0]] ∧
      (gv2.capit_labels.getD []).length
        = (emptyGV.capit_labels.getD []).length + maskCount [[1], [0]] :=
  C2_mask_selects_contributions (buildOutput sampleBatch) emptyGV
    [[1], [0]] [[1, 3], [2, 0]] [[0, 2], [5, 1]] [[1], [0]] [[1], [1]]
    (by decide) (by decide) (by decide) (by decide) (by decide)
    (by decide) (by decide) (by decide) (by decide)
    (Or.inl (by decide))

theorem evalIterCore_some_fields (output : List (String × MTensor))
    (gv gv2 : GlobalVars) (h : evalIterCore output gv = some gv2) :
    ∃ mt pl cl plab clab,
      dictLookup output "subtokens_mask" = some mt ∧
      dictLookup output "punct_logits" = some pl ∧
      dictLookup output "capit_logits" = some cl ∧
      dictLookup output "punct_labels" = some plab ∧
      dictLookup output "capit_labels" = some clab ∧
      gv2.punct_preds
        = some (gv.punct_preds.getD [] ++ booleanIndex (argmaxLast pl) (maskGt mt)) ∧
      gv2.capit_preds
        = some (gv.capit_preds.getD [] ++ booleanIndex (argmaxLast cl) (maskGt mt)) ∧
      gv2.punct_labels
        = some (gv.punct_labels.getD [] ++ booleanIndex (scalarList plab) (maskGt mt)) ∧
      gv2.capit_labels
        = some (gv.capit_labels.getD [] ++ booleanIndex (scalarList clab) (maskGt mt)) ∧
      gv2.punct_all_preds = some (gv.punct_all_preds.getD []) ∧
      gv2.punct_all_labels = some (gv.punct_all_labels.getD []) ∧
      gv2.capit_all_preds = some (gv.capit_all_preds.getD []) ∧
      gv2.capit_all_labels = some (gv.capit_all_labels.getD []) ∧
      gv2.all_subtokens_mask = some (gv.all_subtokens_mask.getD []) := by
  unfold evalIterCore at h
  rcases hm : dictLookup output "subtokens_mask" with _ | mt <;> rw [hm] at h
  · simp at h
  rcases hpl : dictLookup output "punct_logits" with _ | pl <;> rw [hpl] at h
  · simp at h
  rcases hcl : dictLookup output "capit_logits" with _ | cl <;> rw [hcl] at h
  · simp at h
  rcases hplab : dictLookup output "punct_labels" with _ | plab <;> rw [hplab] at h
  · simp at h
  rcases hclab : dictLookup output "capit_labels" with _ | clab <;> rw [hclab] at h
  · simp at h
  refine ⟨mt, pl, cl, plab, clab, rfl, rfl, rfl, rfl, rfl, ?_⟩
  rcases hpsl : dictLookup output "part_sent_logits" with _ | psl <;> rw [hpsl] at h
  · replace h := Option.some.inj h
    subst h
    simp
  rcases hpslab : dictLookup output "part_sent_labels" with _ | pslab <;>
    rw [hpslab] at h
  · simp at h
  rcases hp : gv.part_sent_preds with _ | pp
  · simp only [hp, Option.isSome_none, Bool.false_eq_true, if_false,
      Option.some.injEq] at h
    subst h
    simp
  · rcases hlab : gv.part_sent_labels with _ | plbs
    · simp [hp, hlab] at h
    · simp only [hp, hlab, Option.isSome_some, if_true, Option.some.injEq] at h
      subst h
      simp

theorem evalIterCallback_step_lengths (b : List (String × List MTensor))
    (gv g : GlobalVars) (hal : alignedOutput (buildOutput b) = true)
    (h : evalIterCallback b gv = some g) :
    ∃ n,
      (g.punct_preds.getD []).length = (gv.punct_preds.getD []).length + n ∧
      (g.punct_labels.getD []).length = (gv.punct_labels.getD []).length + n ∧
      (g.capit_preds.getD []).length = (gv.capit_preds.getD []).length + n ∧
      (g.capit_labels.getD []).length = (gv.capit_labels.getD []).length + n := by
  obtain ⟨mt, pl, cl, plab, clab, hm, hpl, hcl, hplab, hclab,
    e1, e2, e3, e4, _⟩ := evalIterCore_some_fields (buildOutput b) gv g h
  unfold alignedOutput at hal
  rw [hm, hpl, hcl, hplab, hclab] at hal
  simp only [Bool.and_eq_true, beq_iff_eq] at hal
  obtain ⟨⟨⟨l1, l2⟩, l3⟩, l4⟩ := hal
  refine ⟨maskCount mt, ?_, ?_, ?_, ?_⟩
  · rw [e1]
    simp [maskCount,
      booleanIndex_length (argmaxLast pl) (maskGt mt)
        (by rw [argmaxLast_length, maskGt_length, l1])]
  · rw [e3]
    simp [maskCount,
      booleanIndex_length (scalarList plab) (maskGt mt)
        (by rw [scalarList_length, maskGt_length, l3])]
  · rw [e2]
    simp [maskCount,
      booleanIndex_length (argmaxLast cl) (maskGt mt)
        (by rw [argmaxLast_length, maskGt_length, l2])]
  · rw [e4]
    simp [maskCount,
      booleanIndex_length (scalarList clab) (maskGt mt)
        (by rw [scalarList_length, maskGt_length, l4])]

theorem runBatches_preserves_equal_lengths
    (batches : List (List (String × List MTensor))) :
    ∀ (gv gv1 : GlobalVars),
      (∀ b ∈ batches, alignedOutput (buildOutput b) = true) →
      runBatches batches gv = some gv1 →
      (gv.punct_preds.getD []).length = (gv.punct_labels.getD []).length ∧
      (gv.punct_preds.getD []).length = (gv.capit_preds.getD []).length ∧
      (gv.punct_preds.getD []).length = (gv.capit_labels.getD []).length →
      (gv1.punct_preds.getD []).length = (gv1.punct_labels.getD []).length ∧
      (gv1.punct_preds.getD []).length = (gv1.capit_preds.getD []).length ∧
      (gv1.punct_preds.getD []).length = (gv1.capit_labels.getD []).length := by
  induction batches with
  | nil =>
      intro gv gv1 _ hrun hinv
      unfold runBatches at hrun
      simp only [List.foldlM_nil] at hrun
      replace hrun := Option.some.inj hrun
      subst hrun
      exact hinv
  | cons b bs ih =>
      intro gv gv1 hal hrun hinv
      unfold runBatches at hrun
      rw [List.foldlM_cons] at hrun
      obtain ⟨g, hg, hrest⟩ := Option.bind_eq_some.mp hrun
      obtain ⟨n, s1, s2, s3, s4⟩ :=
        evalIterCallback_step_lengths b gv g (hal b (by simp)) hg
      refine ih g gv1 (fun x hx => hal x (by simp [hx])) hrest ⟨?_, ?_, ?_⟩ <;>
        omega

theorem buildOutput_sampleBatch :
    buildOutput sampleBatch
      = [("subtokens_mask", [[1], [0]]),
         ("punct_logits", [[1, 3], [2, 0]]),
         ("capit_logits", [[0, 2], [5, 1]]),
         ("punct_labels", [[1], [0]]),
         ("capit_labels", [[1], [1]])] := by
  decide

theorem evalIterCallback_sampleBatch :
    evalIterCallback sampleBatch emptyGV = some sampleGV := by
  unfold evalIterCallback
  rw [buildOutput_sampleBatch]
  simp [evalIterCore, dictLookup, maskGt, argmaxLast, argmaxFrom, scalarList,
    booleanIndex, emptyGV, sampleGV]
  norm_num

theorem runBatches_sampleBatch :
    runBatches [sampleBatch] emptyGV = some sampleGV := by
  simp only [runBatches, List.foldlM_cons, List.foldlM_nil]
  rw [evalIterCallback_sampleBatch]
  rfl

/-- C8: after any number of `eval_iter_callback` calls starting from an
empty `global_vars` (each batch shape-aligned), the four accumulator lists
`punct_preds`, `punct_labels`, `capit_preds` and `capit_labels` all have
equal length: each call extends all four by selections under the same
subtoken mask. -/
theorem C8_four_accumulators_equal_length
    (batches : List (List (String × List MTensor))) (gv1 : GlobalVars)
    (hal : ∀ b ∈ batches, alignedOutput (buildOutput b) = true)
    (hrun : runBatches batches emptyGV = some gv1) :
    (gv1.punct_preds.getD []).length = (gv1.punct_labels.getD []).length ∧
    (gv1.punct_preds.getD []).length = (gv1.capit_preds.getD []).length ∧
    (gv1.punct_preds.getD []).length = (gv1.capit_labels.getD []).length :=
  runBatches_preserves_equal_lengths batches emptyGV gv1 hal hrun ⟨rfl, rfl, rfl⟩

theorem C8_witness :
    (sampleGV.punct_preds.getD []).length = (sampleGV.punct_labels.getD []).length ∧
    (sampleGV.punct_preds.getD []).length = (sampleGV.capit_preds.getD []).length ∧
    (sampleGV.punct_preds.getD []).length = (sampleGV.capit_labels.getD []).length :=
  C8_four_accumulators_equal_length [sampleBatch] sampleGV
    (by decide) runBatches_sampleBatch

theorem runBatches_preserves_dead_empty
    (batches : List (List (String × List MTensor))) :
    ∀ (gv gv1 : GlobalVars),
      runBatches batches gv = some gv1 →
      (gv.punct_all_preds = some [] ∧ gv.punct_all_labels = some [] ∧
       gv.capit_all_preds = some [] ∧ gv.capit_all_labels = some [] ∧
       gv.all_subtokens_mask = some []) →
      (gv1.punct_all_preds = some [] ∧ gv1.punct_all_labels = some [] ∧
       gv1.capit_all_preds = some [] ∧ gv1.capit_all_labels = some [] ∧
       gv1.all_subtokens_mask = some []) := by
  induction batches with
  | nil =>
      intro gv gv1 hrun hinv
      unfold runBatches at hrun
      simp only [List.foldlM_nil] at hrun
      replace hrun := Option.some.inj hrun
      subst hrun
      exact hinv
  | cons b bs ih =>
      intro gv gv1 hrun hinv
      unfold runBatches at hrun
      rw [List.foldlM_cons] at hrun
      obtain ⟨g, hg, hrest⟩ := Option.bind_eq_some.mp hrun
      obtain ⟨mt, pl, cl, plab, clab, _, _, _, _, _, _, _, _, _,
        d1, d2, d3, d4, d5⟩ := evalIterCore_some_fields (buildOutput b) gv g hg
      refine ih g gv1 hrest ?_
      rw [hinv.1] at d1
      rw [hinv.2.1] at d2
      rw [hinv.2.2.1] at d3
      rw [hinv.2.2.2.1] at d4
      rw [hinv.2.2.2.2] at d5
      exact ⟨by simpa using d1, by simpa using d2, by simpa using d3,
        by simpa using d4, by simpa using d5⟩

/-- C9: the five `global_vars` entries `punct_all_preds`, `punct_all_labels`,
`capit_all_preds`, `capit_all_labels` and `all_subtokens_mask` are created
empty by the first `eval_iter_callback` call, stay empty after any further
calls, and the epoch-end result does not depend on them (changing them
arbitrarily leaves `eval_epochs_done_callback` unchanged). -/
theorem C9_dead_accumulators_stay_empty
    (b : List (String × List MTensor)) (bs : List (List (String × List MTensor)))
    (gv1 : GlobalVars) (hrun : runBatches (b :: bs) emptyGV = some gv1) :
    (gv1.punct_all_preds = some [] ∧ gv1.punct_all_labels = some [] ∧
     gv1.capit_all_preds = some [] ∧ gv1.capit_all_labels = some [] ∧
     gv1.all_subtokens_mask = some []) ∧
    (∀ (I : Type) (classReport : List ℚ → List Nat → I → List (String × ClassStats))
       (gv : GlobalVars) (a b2 c d e : Option (List ℚ)) (pids cids tids : I),
       evalEpochsDone classReport
         { gv with punct_all_preds := a, punct_all_labels := b2,
                   capit_all_preds := c, capit_all_labels := d,
                   all_subtokens_mask := e } pids cids tids
         = evalEpochsDone classReport gv pids cids tids) := by
  constructor
  · unfold runBatches at hrun
    rw [List.foldlM_cons] at hrun
    obtain ⟨g, hg, hrest⟩ := Option.bind_eq_some.mp hrun
    obtain ⟨mt, pl, cl, plab, clab, _, _, _, _, _, _, _, _, _,
      d1, d2, d3, d4, d5⟩ := evalIterCore_some_fields (buildOutput b) emptyGV g hg
    refine runBatches_preserves_dead_empty bs g gv1 hrest ?_
    exact ⟨by simpa [emptyGV] using d1, by simpa [emptyGV] using d2,
      by simpa [emptyGV] using d3, by simpa [emptyGV] using d4,
      by simpa [emptyGV] using d5⟩
  · intro I classReport gv a b2 c d e pids cids tids
    rfl

theorem C9_witness :
    ((sampleGV.punct_all_preds = some [] ∧ sampleGV.punct_all_labels = some [] ∧
      sampleGV.capit_all_preds = some [] ∧ sampleGV.capit_all_labels = some [] ∧
      sampleGV.all_subtokens_mask = some []) ∧
     (∀ (I : Type) (classReport : List ℚ → List Nat → I → List (String × ClassStats))
        (gv : GlobalVars) (a b2 c d e : Option (List ℚ)) (pids cids tids : I),
        evalEpochsDone classReport
          { gv with punct_all_preds := a, punct_all_labels := b2,
                    capit_all_preds := c, capit_all_labels := d,
                    all_subtokens_mask := e } pids cids tids
          = evalEpochsDone classReport gv pids cids tids)) :=
  C9_dead_accumulators_stay_empty sampleBatch [] sampleGV runBatches_sampleBatch

/-! ### Dictionary lemmas for the epoch-end claims -/

theorem dictLookup_eq_none_of_not_mem {α : Type} (d : List (String × α)) (k : String)
    (h : k ∉ d.map (fun p => p.1)) : dictLookup d k = none := by
  unfold dictLookup
  have hf : d.find? (fun p => p.1 == k) = none := by
    rw [List.find?_eq_none]
    intro p hp
    simp only [beq_iff_eq]
    intro he
    exact h (List.mem_map.mpr ⟨p, hp, he⟩)
  rw [hf]
  rfl

theorem dictLookup_append_none {α : Type} (d1 d2 : List (String × α)) (k : String)
    (h : dictLookup d1 k = none) :
    dictLookup (d1 ++ d2) k = dictLookup d2 k := by
  unfold dictLookup at *
  have hf : d1.find? (fun p => p.1 == k) = none := by
    rcases hf : d1.find? (fun p => p.1 == k) with _ | p
    · exact hf
    · rw [hf] at h
      simp at h
  rw [List.find?_append, hf]
  rfl

theorem dictLookup_append_some {α : Type} (d1 d2 : List (String × α)) (k : String)
    (v : α) (h : dictLookup d1 k = some v) :
    dictLookup (d1 ++ d2) k = some v := by
  unfold dictLookup at *
  rcases hf : d1.find? (fun p => p.1 == k) with _ | p
  · rw [hf] at h
    simp at h
  · rw [hf] at h
    rw [List.find?_append, hf]
    exact h

theorem dictInsert_of_lookup_none {α : Type} (d : List (String × α)) (k : String)
    (v : α) (h : dictLookup d k = none) : dictInsert d k v = d ++ [(k, v)] := by
  unfold dictInsert
  unfold dictLookup at h
  rcases hf : d.find? (fun p => p.1 == k) with _ | p
  · simp [hf]
  · rw [hf] at h
    simp at h

theorem dictLookup_mem_nodup {α : Type} :
    ∀ (d : List (String × α)) (k : String) (v : α),
      (k, v) ∈ d → (d.map (fun p => p.1)).Nodup → dictLookup d k = some v
  | [], k, v, hmem, _ => by simp at hmem
  | (k0, v0) :: rest, k, v, hmem, hnd => by
      rcases List.mem_cons.mp hmem with he | hr
      · injection he with hk hv
        subst hk
        subst hv
        simp [dictLookup]
      · have hk0 : k0 ≠ k := by
          intro he0
          have hkm : k ∈ rest.map (fun p => p.1) :=
            List.mem_map.mpr ⟨(k, v), hr, rfl⟩
          rw [List.map_cons] at hnd
          exact (List.nodup_cons.mp hnd).1 (he0 ▸ hkm)
        have hnd2 : (rest.map (fun p => p.1)).Nodup := by
          rw [List.map_cons] at hnd
          exact (List.nodup_cons.mp hnd).2
        have hrec := dictLookup_mem_nodup rest k v hr hnd2
        have hb : (k0 == k) = false := beq_eq_false_iff_ne.mpr hk0
        unfold dictLookup at hrec ⊢
        simp only [List.find?_cons, hb, Bool.false_eq_true, if_false]
        exact hrec

theorem flatResult_cons (tag : String) (l : String) (st : ClassStats)
    (rest : List (String × ClassStats)) :
    flatResult tag ((l, st) :: rest)
      = resultEntries tag (nameOf l) st ++ flatResult tag rest := rfl

theorem resultKeys_cons (tag : String) (l : String) (st : ClassStats)
    (rest : List (String × ClassStats)) :
    resultKeys tag ((l, st) :: rest)
      = (tag ++ "F1 " ++ nameOf l) :: (tag ++ "PR " ++ nameOf l)
        :: (tag ++ "R " ++ nameOf l) :: resultKeys tag rest := by
  simp [resultKeys, flatResult_cons, resultEntries]

theorem dictKeys_append {α : Type} (d1 d2 : List (String × α)) :
    (d1 ++ d2).map (fun p => p.1)
      = d1.map (fun p => p.1) ++ d2.map (fun p => p.1) := by
  simp

theorem resultDictAux_spec (tag : String) :
    ∀ (report : List (String × ClassStats)) (acc : List (String × ℚ)),
      (∀ p ∈ report, (labelName p.1).isSome) →
      (∀ k ∈ resultKeys tag report, dictLookup acc k = none) →
      (resultKeys tag report).Nodup →
      resultDictAux tag report acc = some (acc ++ flatResult tag report)
  | [], acc, _, _, _ => by simp [resultDictAux, flatResult]
  | (l, st) :: rest, acc, hwf, hdisj, hnd => by
      obtain ⟨name, hname⟩ :=
        Option.isSome_iff_exists.mp (hwf (l, st) (List.mem_cons_self _ _))
      have hname2 : labelName l = some name := hname
      have hnameOf : nameOf l = name := by simp [nameOf, hname2]
      rw [resultKeys_cons, hnameOf] at hdisj hnd
      have hd1 : dictLookup acc (tag ++ "F1 " ++ name) = none :=
        hdisj _ (by simp)
      have hd2 : dictLookup acc (tag ++ "PR " ++ name) = none :=
        hdisj _ (by simp)
      have hd3 : dictLookup acc (tag ++ "R " ++ name) = none :=
        hdisj _ (by simp)
      have hne12 : (tag ++ "F1 " ++ name) ≠ (tag ++ "PR " ++ name) := by
        intro he
        exact (List.nodup_cons.mp hnd).1 (by simp [he])
      have hne13 : (tag ++ "F1 " ++ name) ≠ (tag ++ "R " ++ name) := by
        intro he
        exact (List.nodup_cons.mp hnd).1 (by simp [he])
      have hne23 : (tag ++ "PR " ++ name) ≠ (tag ++ "R " ++ name) := by
        intro he
        exact ((List.nodup_cons.mp (List.nodup_cons.mp hnd).2).1) (by simp [he])
      -- the three inserts are appends of fresh keys
      have i1 : dictInsert acc (tag ++ "F1 " ++ name) (pyRound2 (st.f1_score * 100))
          = acc ++ [(tag ++ "F1 " ++ name, pyRound2 (st.f1_score * 100))] :=
        dictInsert_of_lookup_none _ _ _ hd1
      have l2 : dictLookup (acc ++ [(tag ++ "F1 " ++ name, pyRound2 (st.f1_score * 100))])
          (tag ++ "PR " ++ name) = none := by
        rw [dictLookup_append_none _ _ _ hd2]
        refine dictLookup_eq_none_of_not_mem _ _ ?_
        simp only [List.map_cons, List.map_nil, List.mem_singleton]
        exact fun h => hne12 h.symm
      have i2 : dictInsert
            (acc ++ [(tag ++ "F1 " ++ name, pyRound2 (st.f1_score * 100))])
            (tag ++ "PR " ++ name) (pyRound2 (st.precision * 100))
          = acc ++ [(tag ++ "F1 " ++ name, pyRound2 (st.f1_score * 100)),
                    (tag ++ "PR " ++ name, pyRound2 (st.precision * 100))] := by
        rw [dictInsert_of_lookup_none _ _ _ l2]
        simp
      have l3 : dictLookup
          (acc ++ [(tag ++ "F1 " ++ name, pyRound2 (st.f1_score * 100)),
                   (tag ++ "PR " ++ name, pyRound2 (st.precision * 100))])
          (tag ++ "R " ++ name) = none := by
        rw [dictLookup_append_none _ _ _ hd3]
        refine dictLookup_eq_none_of_not_mem _ _ ?_
        simp only [List.map_cons, List.map_nil, List.mem_cons,
          List.not_mem_nil, or_false, not_or]
        exact ⟨fun h => hne13 h.symm, fun h => hne23 h.symm⟩
      have i3 : dictInsert
            (acc ++ [(tag ++ "F1 " ++ name, pyRound2 (st.f1_score * 100)),
                     (tag ++ "PR " ++ name, pyRound2 (st.precision * 100))])
            (tag ++ "R " ++ name) (pyRound2 (st.recall_score * 100))
          = acc ++ [(tag ++ "F1 " ++ name, pyRound2 (st.f1_score * 100)),
                    (tag ++ "PR " ++ name, pyRound2 (st.precision * 100)),
                    (tag ++ "R " ++ name, pyRound2 (st.recall_score * 100))] := by
        rw [dictInsert_of_lookup_none _ _ _ l3]
        simp
      have hstep : resultDictAux tag ((l, st) :: rest) acc
          = resultDictAux tag rest
              (acc ++ [(tag ++ "F1 " ++ name, pyRound2 (st.f1_score * 100)),
                       (tag ++ "PR " ++ name, pyRound2 (st.precision * 100)),
                       (tag ++ "R " ++ name, pyRound2 (st.recall_score * 100))]) := by
        simp only [resultDictAux, hname2, i1, i2, i3]
      rw [hstep]
      have hrec := resultDictAux_spec tag rest
        (acc ++ [(tag ++ "F1 " ++ name, pyRound2 (st.f1_score * 100)),
                 (tag ++ "PR " ++ name, pyRound2 (st.precision * 100)),
                 (tag ++ "R " ++ name, pyRound2 (st.recall_score * 100))])
        (fun p hp => hwf p (List.mem_cons_of_mem _ hp))
        (by
          intro k hk
          have hkacc : dictLookup acc k = none := hdisj k (by simp [hk])
          rw [dictLookup_append_none _ _ _ hkacc]
          refine dictLookup_eq_none_of_not_mem _ _ ?_
          have h1 : k ≠ (tag ++ "F1 " ++ name) := by
            intro he
            exact (List.nodup_cons.mp hnd).1 (he ▸ by simp [hk])
          have h2 : k ≠ (tag ++ "PR " ++ name) := by
            intro he
            exact ((List.nodup_cons.mp (List.nodup_cons.mp hnd).2).1) (he ▸ by simp [hk])
          have h3 : k ≠ (tag ++ "R " ++ name) := by
            intro he
            exact ((List.nodup_cons.mp
              (List.nodup_cons.mp (List.nodup_cons.mp hnd).2).2).1) (he ▸ by simp [hk])
          simp [h1, h2, h3])
        (((List.nodup_cons.mp
            (List.nodup_cons.mp (List.nodup_cons.mp hnd).2).2).2))
      rw [hrec, flatResult_cons, hnameOf]
      simp [resultEntries]

theorem get_result_dict_spec (tag : String) (report : List (String × ClassStats))
    (hwf : ∀ p ∈ report, (labelName p.1).isSome)
    (hnd : (resultKeys tag report).Nodup) :
    get_result_dict tag report = some (flatResult tag report) := by
  unfold get_result_dict
  have h := resultDictAux_spec tag report []
    hwf (fun k _ => rfl) hnd
  simpa using h

theorem dictUpdate_append {α : Type} :
    ∀ (e d : List (String × α)),
      (∀ k ∈ e.map (fun p => p.1), dictLookup d k = none) →
      (e.map (fun p => p.1)).Nodup →
      dictUpdate d e = d ++ e
  | [], d, _, _ => by simp [dictUpdate]
  | (k, v) :: e2, d, hdisj, hnd => by
      have hk : dictLookup d k = none := hdisj k (by simp)
      have hstep : dictUpdate d ((k, v) :: e2) = dictUpdate (d ++ [(k, v)]) e2 := by
        simp only [dictUpdate, List.foldl_cons, dictInsert_of_lookup_none d k v hk]
      rw [hstep]
      rw [List.map_cons] at hnd
      have hrec := dictUpdate_append e2 (d ++ [(k, v)])
        (by
          intro k2 hk2
          have hne : k ≠ k2 := by
            intro he
            exact (List.nodup_cons.mp hnd).1 (he ▸ hk2)
          rw [dictLookup_append_none _ _ _ (hdisj k2 (by simp [hk2]))]
          refine dictLookup_eq_none_of_not_mem _ _ ?_
          simp only [List.map_cons, List.map_nil, List.mem_singleton]
          exact fun h => hne h.symm)
        ((List.nodup_cons.mp hnd).2)
      rw [hrec, List.append_assoc]
      rfl

theorem mem_flatResult (tag : String) :
    ∀ (report : List (String × ClassStats)) (l : String) (st : ClassStats),
      (l, st) ∈ report →
      (tag ++ "F1 " ++ nameOf l, pyRound2 (st.f1_score * 100)) ∈ flatResult tag report ∧
      (tag ++ "PR " ++ nameOf l, pyRound2 (st.precision * 100)) ∈ flatResult tag report ∧
      (tag ++ "R " ++ nameOf l, pyRound2 (st.recall_score * 100)) ∈ flatResult tag report
  | [], l, st, hmem => by simp at hmem
  | (l0, st0) :: rest, l, st, hmem => by
      rcases List.mem_cons.mp hmem with he | hr
      · injection he with h1 h2
        subst h1
        subst h2
        rw [flatResult_cons]
        refine ⟨?_, ?_, ?_⟩ <;> exact List.mem_append_left _ (by simp [resultEntries])
      · obtain ⟨m1, m2, m3⟩ := mem_flatResult tag rest l st hr
        rw [flatResult_cons]
        exact ⟨List.mem_append_right _ m1, List.mem_append_right _ m2,
          List.mem_append_right _ m3⟩

theorem keys_flatResult (tag : String) (report : List (String × ClassStats)) :
    (flatResult tag report).map (fun p => p.1) = resultKeys tag report := rfl

theorem evalEpochsDone_eq_append {I : Type}
    (classReport : List ℚ → List Nat → I → List (String × ClassStats))
    (gv : GlobalVars) (pids cids tids : I)
    (plab clab tlab : List ℚ) (ppreds cpreds tpreds : List Nat)
    (h1 : gv.punct_labels = some plab) (h2 : gv.punct_preds = some ppreds)
    (h3 : gv.capit_labels = some clab) (h4 : gv.capit_preds = some cpreds)
    (h5 : gv.part_sent_preds = some tpreds) (h6 : gv.part_sent_labels = some tlab)
    (hwfp : ∀ p ∈ classReport plab ppreds pids, (labelName p.1).isSome)
    (hwfc : ∀ p ∈ classReport clab cpreds cids, (labelName p.1).isSome)
    (hwft : ∀ p ∈ classReport tlab tpreds tids, (labelName p.1).isSome)
    (hnd : (resultKeys "p" (classReport plab ppreds pids)
        ++ resultKeys "c" (classReport clab cpreds cids)
        ++ resultKeys "t" (classReport tlab tpreds tids)
        ++ ["Part_sent_acc"]).Nodup) :
    evalEpochsDone classReport gv pids cids tids
      = some (flatResult "p" (classReport plab ppreds pids)
          ++ flatResult "c" (classReport clab cpreds cids)
          ++ flatResult "t" (classReport tlab tpreds tids)
          ++ [("Part_sent_acc", pyRound2 (partSentAccuracy tlab tpreds * 100))]) := by
  have hndPCT := (List.nodup_append.mp hnd).1
  have hdisjA := (List.nodup_append.mp hnd).2.2
  have hndPC := (List.nodup_append.mp hndPCT).1
  have hndT := (List.nodup_append.mp hndPCT).2.1
  have hdisjPCT := (List.nodup_append.mp hndPCT).2.2
  have hndP := (List.nodup_append.mp hndPC).1
  have hndC := (List.nodup_append.mp hndPC).2.1
  have hdisjPC := (List.nodup_append.mp hndPC).2.2
  have hgp := get_result_dict_spec "p" (classReport plab ppreds pids) hwfp hndP
  have hgc := get_result_dict_spec "c" (classReport clab cpreds cids) hwfc hndC
  have hgt := get_result_dict_spec "t" (classReport tlab tpreds tids) hwft hndT
  have hu1 : dictUpdate [] (flatResult "p" (classReport plab ppreds pids))
      = flatResult "p" (classReport plab ppreds pids) := by
    have h := dictUpdate_append (flatResult "p" (classReport plab ppreds pids)) []
      (fun k _ => rfl) hndP
    simpa using h
  have hu2 : dictUpdate (flatResult "p" (classReport plab ppreds pids))
        (flatResult "c" (classReport clab cpreds cids))
      = flatResult "p" (classReport plab ppreds pids)
        ++ flatResult "c" (classReport clab cpreds cids) := by
    refine dictUpdate_append _ _ ?_ hndC
    intro k hk
    refine dictLookup_eq_none_of_not_mem _ _ ?_
    rw [keys_flatResult]
    exact fun hp => hdisjPC hp hk
  have hu3 : dictUpdate
        (flatResult "p" (classReport plab ppreds pids)
          ++ flatResult "c" (classReport clab cpreds cids))
        (flatResult "t" (classReport tlab tpreds tids))
      = flatResult "p" (classReport plab ppreds pids)
        ++ flatResult "c" (classReport clab cpreds cids)
        ++ flatResult "t" (classReport tlab tpreds tids) := by
    refine dictUpdate_append _ _ ?_ hndT
    intro k hk
    refine dictLookup_eq_none_of_not_mem _ _ ?_
    rw [List.map_append, keys_flatResult, keys_flatResult]
    exact fun hp => hdisjPCT hp hk
  have hi : dictInsert
        (flatResult "p" (classReport plab ppreds pids)
          ++ flatResult "c" (classReport clab cpreds cids)
          ++ flatResult "t" (classReport tlab tpreds tids))
        "Part_sent_acc" (pyRound2 (partSentAccuracy tlab tpreds * 100))
      = flatResult "p" (classReport plab ppreds pids)
        ++ flatResult "c" (classReport clab cpreds cids)
        ++ flatResult "t" (classReport tlab tpreds tids)
        ++ [("Part_sent_acc", pyRound2 (partSentAccuracy tlab tpreds * 100))] := by
    refine dictInsert_of_lookup_none _ _ _ ?_
    refine dictLookup_eq_none_of_not_mem _ _ ?_
    rw [List.map_append, List.map_append, keys_flatResult, keys_flatResult,
      keys_flatResult]
    exact fun hp => hdisjA hp (by simp)
  have hred : evalEpochsDone classReport gv pids cids tids
      = (do
          let pDict ← get_result_dict "p" (classReport plab ppreds pids)
          let cDict ← get_result_dict "c" (classReport clab cpreds cids)
          let tDict ← get_result_dict "t" (classReport tlab tpreds tids)
          pure (dictInsert (dictUpdate (dictUpdate (dictUpdate [] pDict) cDict) tDict)
            "Part_sent_acc" (pyRound2 (partSentAccuracy tlab tpreds * 100)))) := by
    unfold evalEpochsDone
    rw [h1, h2, h3, h4, h5, h6]
    rfl
  rw [hred, hgp, hgc, hgt]
  show some (dictInsert (dictUpdate (dictUpdate (dictUpdate []
      (flatResult "p" (classReport plab ppreds pids)))
      (flatResult "c" (classReport clab cpreds cids)))
      (flatResult "t" (classReport tlab tpreds tids)))
      "Part_sent_acc" (pyRound2 (partSentAccuracy tlab tpreds * 100))) = _
  rw [hu1, hu2, hu3, hi]

/-- C7: at epoch end, `eval_epochs_done_callback` returns one flat mapping
that, for each task (prefix `p` for punctuation, `c` for capitalization,
`t` for the partial-sentence task) and each class label of that task's
classification report, contains the keys formed from the prefix joined with
`F1 `, `PR ` or `R ` and the label name, whose values are the report's
f1-score, precision and recall multiplied by 100 and rounded to 2 decimal
places (banker's rounding, the ideal-decimal model of Python `round`). -/
theorem C7_flat_result_mapping {I : Type}
    (classReport : List ℚ → List Nat → I → List (String × ClassStats))
    (gv : GlobalVars) (pids cids tids : I)
    (plab clab tlab : List ℚ) (ppreds cpreds tpreds : List Nat)
    (h1 : gv.punct_labels = some plab) (h2 : gv.punct_preds = some ppreds)
    (h3 : gv.capit_labels = some clab) (h4 : gv.capit_preds = some cpreds)
    (h5 : gv.part_sent_preds = some tpreds) (h6 : gv.part_sent_labels = some tlab)
    (hwfp : ∀ p ∈ classReport plab ppreds pids, (labelName p.1).isSome)
    (hwfc : ∀ p ∈ classReport clab cpreds cids, (labelName p.1).isSome)
    (hwft : ∀ p ∈ classReport tlab tpreds tids, (labelName p.1).isSome)
    (hnd : (resultKeys "p" (classReport plab ppreds pids)
        ++ resultKeys "c" (classReport clab cpreds cids)
        ++ resultKeys "t" (classReport tlab tpreds tids)
        ++ ["Part_sent_acc"]).Nodup) :
    ∃ res, evalEpochsDone classReport gv pids cids tids = some res ∧
      (∀ l st, (l, st) ∈ classReport plab ppreds pids →
        dictLookup res ("p" ++ "F1 " ++ nameOf l) = some (pyRound2 (st.f1_score * 100)) ∧
        dictLookup res ("p" ++ "PR " ++ nameOf l) = some (pyRound2 (st.precision * 100)) ∧
        dictLookup res ("p" ++ "R " ++ nameOf l) = some (pyRound2 (st.recall_score * 100))) ∧
      (∀ l st, (l, st) ∈ classReport clab cpreds cids →
        dictLookup res ("c" ++ "F1 " ++ nameOf l) = some (pyRound2 (st.f1_score * 100)) ∧
        dictLookup res ("c" ++ "PR " ++ nameOf l) = some (pyRound2 (st.precision * 100)) ∧
        dictLookup res ("c" ++ "R " ++ nameOf l) = some (pyRound2 (st.recall_score * 100))) ∧
      (∀ l st, (l, st) ∈ classReport tlab tpreds tids →
        dictLookup res ("t" ++ "F1 " ++ nameOf l) = some (pyRound2 (st.f1_score * 100)) ∧
        dictLookup res ("t" ++ "PR " ++ nameOf l) = some (pyRound2 (st.precision * 100)) ∧
        dictLookup res ("t" ++ "R " ++ nameOf l) = some (pyRound2 (st.recall_score * 100))) := by
  have heq := evalEpochsDone_eq_append classReport gv pids cids tids
    plab clab tlab ppreds cpreds tpreds h1 h2 h3 h4 h5 h6 hwfp hwfc hwft hnd
  refine ⟨_, heq, ?_, ?_, ?_⟩
  all_goals
    have hndRES : ((flatResult "p" (classReport plab ppreds pids)
        ++ flatResult "c" (classReport clab cpreds cids)
        ++ flatResult "t" (classReport tlab tpreds tids)
        ++ [("Part_sent_acc",
              pyRound2 (partSentAccuracy tlab tpreds * 100))]).map
          (fun p => p.1)).Nodup := by
      simp only [List.map_append, keys_flatResult, List.map_cons, List.map_nil]
      exact hnd
  · intro l st hmem
    obtain ⟨m1, m2, m3⟩ := mem_flatResult "p" (classReport plab ppreds pids) l st hmem
    exact ⟨dictLookup_mem_nodup _ _ _
        (List.mem_append_left _ (List.mem_append_left _ (List.mem_append_left _ m1)))
        hndRES,
      dictLookup_mem_nodup _ _ _
        (List.mem_append_left _ (List.mem_append_left _ (List.mem_append_left _ m2)))
        hndRES,
      dictLookup_mem_nodup _ _ _
        (List.mem_append_left _ (List.mem_append_left _ (List.mem_append_left _ m3)))
        hndRES⟩
  · intro l st hmem
    obtain ⟨m1, m2, m3⟩ := mem_flatResult "c" (classReport clab cpreds cids) l st hmem
    exact ⟨dictLookup_mem_nodup _ _ _
        (List.mem_append_left _ (List.mem_append_left _ (List.mem_append_right _ m1)))
        hndRES,
      dictLookup_mem_nodup _ _ _
        (List.mem_append_left _ (List.mem_append_left _ (List.mem_append_right _ m2)))
        hndRES,
      dictLookup_mem_nodup _ _ _
        (List.mem_append_left _ (List.mem_append_left _ (List.mem_append_right _ m3)))
        hndRES⟩
  · intro l st hmem
    obtain ⟨m1, m2, m3⟩ := mem_flatResult "t" (classReport tlab tpreds tids) l st hmem
    exact ⟨dictLookup_mem_nodup _ _ _
        (List.mem_append_left _ (List.mem_append_right _ m1)) hndRES,
      dictLookup_mem_nodup _ _ _
        (List.mem_append_left _ (List.mem_append_right _ m2)) hndRES,
      dictLookup_mem_nodup _ _ _
        (List.mem_append_left _ (List.mem_append_right _ m3)) hndRES⟩

theorem C7_witness :
    ∃ res,
      evalEpochsDone (I := Unit) (fun _ _ _ => [("O", ClassStats.mk 1 1 1)])
          { punct_labels := some [0], punct_preds := some [0],
            capit_labels := some [0], capit_preds := some [0],
            part_sent_preds := some [1], part_sent_labels := some [1] } () () ()
        = some res ∧
      (∀ l st, (l, st) ∈ [("O", ClassStats.mk 1 1 1)] →
        dictLookup res ("p" ++ "F1 " ++ nameOf l) = some (pyRound2 (st.f1_score * 100)) ∧
        dictLookup res ("p" ++ "PR " ++ nameOf l) = some (pyRound2 (st.precision * 100)) ∧
        dictLookup res ("p" ++ "R " ++ nameOf l) = some (pyRound2 (st.recall_score * 100))) ∧
      (∀ l st, (l, st) ∈ [("O", ClassStats.mk 1 1 1)] →
        dictLookup res ("c" ++ "F1 " ++ nameOf l) = some (pyRound2 (st.f1_score * 100)) ∧
        dictLookup res ("c" ++ "PR " ++ nameOf l) = some (pyRound2 (st.precision * 100)) ∧
        dictLookup res ("c" ++ "R " ++ nameOf l) = some (pyRound2 (st.recall_score * 100))) ∧
      (∀ l st, (l, st) ∈ [("O", ClassStats.mk 1 1 1)] →
        dictLookup res ("t" ++ "F1 " ++ nameOf l) = some (pyRound2 (st.f1_score * 100)) ∧
        dictLookup res ("t" ++ "PR " ++ nameOf l) = some (pyRound2 (st.precision * 100)) ∧
        dictLookup res ("t" ++ "R " ++ nameOf l) = some (pyRound2 (st.recall_score * 100))) :=
  C7_flat_result_mapping (I := Unit) (fun _ _ _ => [("O", ClassStats.mk 1 1 1)])
    { punct_labels := some [0], punct_preds := some [0],
      capit_labels := some [0], capit_preds := some [0],
      part_sent_preds := some [1], part_sent_labels := some [1] } () () ()
    [0] [0] [1] [0] [0] [1]
    rfl rfl rfl rfl rfl rfl
    (by decide) (by decide) (by decide) (by decide)

end NeMo
